import Mathlib

/-!
Shallow embedding of the transfer engine of the high-frequency-transaction-system
repository (src/app/services/transaction_service.py), its exception taxonomy
(src/app/core/exceptions.py), the HTTP adapter's error mapping
(src/app/api/v1/transactions.py), and the amount serialization of the
transaction schemas (src/app/schemas/transaction.py).

Modelling conventions:
- `DECIMAL(18,4)` balances and amounts are represented as integers counting
  units of 10⁻⁴ (scale-4 fixed point).  Python's `decimal.Decimal` arithmetic on
  such values (`+`, `-`, comparisons) is exact at this scale, so `Int`
  arithmetic is a faithful model.
- Wallet UUIDs are modelled as `Nat`; `str(wallet_id)` becomes `toString`.
- The database visible to a session is a `DB` value: a list of wallet rows and
  a list of transaction rows.  Engine writes are reified as a `WriteOp` trace
  so that "the engine issued no write" is expressible, and are also applied to
  the session state.
- The optimistic engine takes two states: `dbRead`, the committed state its
  non-locking SELECTs observe, and `dbWrite`, the committed state at the time
  its conditional UPDATEs execute (they differ exactly when a concurrent
  writer committed in between; `dbRead = dbWrite` is the quiescent run).
- The caller (src/app/api/v1/transactions.py) wraps the engine in
  `async with session.begin()`: commit on normal return, rollback on any
  exception.  `committedDb` embeds that contract.
-/

namespace HFTS

/-- One row of the `wallets` table (src/app/models/wallet.py) as the engine
reads it; `balance` is in scale-4 fixed-point units.  The timestamp columns,
which the engine never reads but the store rewrites on UPDATE, are modelled in
the extended row `WalletTs` below. -/
structure Wallet where
  id : Nat
  user_id : Nat
  balance : Int
  currency : String
  version : Nat
deriving Repr, DecidableEq

/-- Transaction status enum (src/app/models/transaction.py). -/
inductive TransactionStatus where
  | PENDING
  | COMPLETED
  | FAILED
deriving Repr, DecidableEq

/-- One row of the `transactions` table (src/app/models/transaction.py);
`id` and `created_at` are generated server-side and omitted. -/
structure Transaction where
  sender_wallet_id : Nat
  receiver_wallet_id : Nat
  amount : Int
  status : TransactionStatus
deriving Repr, DecidableEq

/-- The application exception taxonomy of src/app/core/exceptions.py, restricted
to the errors the transfer engine raises. -/
inductive AppError where
  | validationError (message : String)
  | notFoundError (resource : String) (identifier : String)
  | insufficientFundsError (wallet_id : String) (required : Int) (available : Int)
  | concurrencyError (resource : String) (identifier : String)
deriving Repr, DecidableEq

/-- The `status_code` each exception class assigns itself in
src/app/core/exceptions.py. -/
def AppError.status_code : AppError → Nat
  | .validationError _ => 422
  | .notFoundError _ _ => 404
  | .insufficientFundsError _ _ _ => 400
  | .concurrencyError _ _ => 409

/-- Database state visible to one session: the wallet rows and transaction rows. -/
structure DB where
  wallets : List Wallet
  transactions : List Transaction
deriving Repr, DecidableEq

/-- Point read `SELECT * FROM wallets WHERE id = ?` (first matching row). -/
def findWallet (db : DB) (id : Nat) : Option Wallet :=
  db.wallets.find? (fun w => w.id == id)

/-- A write issued by the engine inside the session. -/
inductive WriteOp where
  | setBalance (id : Nat) (newBalance : Int)
  | condUpdate (id : Nat) (expectedVersion : Nat) (newBalance : Int) (newVersion : Nat)
  | insertTxn (t : Transaction)
deriving Repr, DecidableEq

/-- Effect of one write on the database state.  `setBalance` models the ORM
flush of `wallet.balance = ...`; `condUpdate` models
`UPDATE wallets SET balance = ?, version = ? WHERE id = ? AND version = ?`;
`insertTxn` models `session.add(transaction)`. -/
def applyWrite (db : DB) (op : WriteOp) : DB :=
  match op with
  | .setBalance id b =>
      { db with wallets := db.wallets.map (fun w => if w.id == id then { w with balance := b } else w) }
  | .condUpdate id v b nv =>
      { db with wallets := db.wallets.map (fun w =>
          if w.id == id && w.version == v then { w with balance := b, version := nv } else w) }
  | .insertTxn t =>
      { db with transactions := db.transactions ++ [t] }

/-- Apply a trace of writes in order. -/
def applyWrites (db : DB) (ops : List WriteOp) : DB :=
  ops.foldl applyWrite db

/-- Row count reported for the conditional update
`UPDATE wallets ... WHERE id = ? AND version = ?`. -/
def condRowcount (db : DB) (id : Nat) (v : Nat) : Nat :=
  (db.wallets.filter (fun w => w.id == id && w.version == v)).length

deriving instance DecidableEq for Except

/-- Outcome of one engine call: the returned transaction or the raised error,
the session-visible state when the engine returned or raised, and the trace of
writes the engine issued. -/
structure EngineOutcome where
  result : Except AppError Transaction
  sessionDb : DB
  writes : List WriteOp
deriving Repr, DecidableEq

/-- `TransactionService.transfer_funds_pessimistic`
(src/app/services/transaction_service.py lines 223-278): validate amount, lock
and read sender, lock and read receiver, check self-transfer, check funds, then
mutate both balances and append a COMPLETED transaction row.  Locks serialize
concurrent access, so the session runs against a single state `db`. -/
def transfer_funds_pessimistic (db : DB) (sender_wallet_id receiver_wallet_id : Nat)
    (amount : Int) : EngineOutcome :=
  if amount ≤ 0 then
    ⟨.error (.validationError "Transfer amount must be greater than zero"), db, []⟩
  else
    match findWallet db sender_wallet_id with
    | none => ⟨.error (.notFoundError "Wallet" (toString sender_wallet_id)), db, []⟩
    | some sender_wallet =>
      match findWallet db receiver_wallet_id with
      | none => ⟨.error (.notFoundError "Wallet" (toString receiver_wallet_id)), db, []⟩
      | some receiver_wallet =>
        if sender_wallet_id = receiver_wallet_id then
          ⟨.error (.validationError "Cannot transfer funds to the same wallet"), db, []⟩
        else if sender_wallet.balance < amount then
          ⟨.error (.insufficientFundsError (toString sender_wallet_id) amount sender_wallet.balance),
            db, []⟩
        else
          let w1 : WriteOp := .setBalance sender_wallet_id (sender_wallet.balance - amount)
          let w2 : WriteOp := .setBalance receiver_wallet_id (receiver_wallet.balance + amount)
          let txn : Transaction :=
            ⟨sender_wallet_id, receiver_wallet_id, amount, .COMPLETED⟩
          let w3 : WriteOp := .insertTxn txn
          ⟨.ok txn, applyWrite (applyWrite (applyWrite db w1) w2) w3, [w1, w2, w3]⟩

/-- `TransactionService.transfer_funds_optimistic`
(src/app/services/transaction_service.py lines 354-440): validate amount, read
sender and receiver without locks from `dbRead` capturing balance and version,
check self-transfer and funds on the captured balances, then issue a
version-gated update for the sender against `dbWrite` (raising
`ConcurrencyError` on rowcount 0), then the same for the receiver, then append
the COMPLETED transaction row. -/
def transfer_funds_optimistic (dbRead dbWrite : DB) (sender_wallet_id receiver_wallet_id : Nat)
    (amount : Int) : EngineOutcome :=
  if amount ≤ 0 then
    ⟨.error (.validationError "Transfer amount must be greater than zero"), dbWrite, []⟩
  else
    match findWallet dbRead sender_wallet_id with
    | none => ⟨.error (.notFoundError "Wallet" (toString sender_wallet_id)), dbWrite, []⟩
    | some sender_wallet =>
      match findWallet dbRead receiver_wallet_id with
      | none => ⟨.error (.notFoundError "Wallet" (toString receiver_wallet_id)), dbWrite, []⟩
      | some receiver_wallet =>
        let sender_version := sender_wallet.version
        let sender_balance := sender_wallet.balance
        let receiver_version := receiver_wallet.version
        let receiver_balance := receiver_wallet.balance
        if sender_wallet_id = receiver_wallet_id then
          ⟨.error (.validationError "Cannot transfer funds to the same wallet"), dbWrite, []⟩
        else if sender_balance < amount then
          ⟨.error (.insufficientFundsError (toString sender_wallet_id) amount sender_balance),
            dbWrite, []⟩
        else
          let w1 : WriteOp :=
            .condUpdate sender_wallet_id sender_version (sender_balance - amount) (sender_version + 1)
          let db1 := applyWrite dbWrite w1
          if condRowcount dbWrite sender_wallet_id sender_version = 0 then
            ⟨.error (.concurrencyError "Wallet" (toString sender_wallet_id)), db1, [w1]⟩
          else
            let w2 : WriteOp :=
              .condUpdate receiver_wallet_id receiver_version (receiver_balance + amount)
                (receiver_version + 1)
            let db2 := applyWrite db1 w2
            if condRowcount db1 receiver_wallet_id receiver_version = 0 then
              ⟨.error (.concurrencyError "Wallet" (toString receiver_wallet_id)), db2, [w1, w2]⟩
            else
              let txn : Transaction :=
                ⟨sender_wallet_id, receiver_wallet_id, amount, .COMPLETED⟩
              ⟨.ok txn, applyWrite db2 (.insertTxn txn), [w1, w2, .insertTxn txn]⟩

/-- Transaction scope of the caller (src/app/api/v1/transactions.py,
`async with session.begin()`): on normal return the session state commits, on
any raised error the session's writes roll back and the pre-call committed
state `pre` stands. -/
def committedDb (pre : DB) (o : EngineOutcome) : DB :=
  match o.result with
  | .ok _ => o.sessionDb
  | .error _ => pre

/-- HTTP status the `/transactions/transfer` endpoint responds with when the
engine raises, following its except chain in order
(src/app/api/v1/transactions.py lines 70-81): `NotFoundError` → 404,
`ValidationError` → 400, `InsufficientFundsError` → 400, and any other
exception — which includes `ConcurrencyError` — falls into the final
`except Exception` branch → 500. -/
def http_error_status (e : AppError) : Nat :=
  match e with
  | .notFoundError _ _ => 404
  | .validationError _ => 400
  | .insufficientFundsError _ _ _ => 400
  | .concurrencyError _ _ => 500

/-! Decimal-string serialization of amounts (src/app/schemas/transaction.py).
A non-negative `Decimal` with at most 4 fractional digits is a coefficient
`c : Nat` together with a scale `s : Nat` (its value is `c / 10 ^ s`). -/

/-- ASCII character of one decimal digit. -/
def digitChar (d : Nat) : Char := Char.ofNat (48 + d)

/-- Numeric value of one ASCII digit character. -/
def charDigit (c : Char) : Nat := c.toNat - 48

/-- Test for an ASCII digit character. -/
def isDigitChar (c : Char) : Bool := 48 ≤ c.toNat && c.toNat ≤ 57

/-- Big-endian decimal digit list of `n` (empty for 0). -/
def natDigitsBE (n : Nat) : List Nat := (Nat.digits 10 n).reverse

/-- Zero-pad a big-endian digit list on the left to length at least `k`. -/
def padLeft (l : List Nat) (k : Nat) : List Nat := List.replicate (k - l.length) 0 ++ l

/-- String emitted by `TransactionRead.serialize_amount`
(src/app/schemas/transaction.py lines 39-42), which returns `str(amount)`:
Python renders a non-negative finite `Decimal` with coefficient `c` and
exponent `-s` (for `0 ≤ s ≤ 4`) in fixed-point form — the digits of `c`,
zero-padded to at least `s + 1` digits, with the decimal point before the last
`s` digits, and no point at all when `s = 0`. -/
def serialize_amount (c s : Nat) : String :=
  if s = 0 then
    String.mk ((padLeft (natDigitsBE c) 1).map digitChar)
  else
    String.mk (((padLeft (natDigitsBE c) (s + 1)).take
        ((padLeft (natDigitsBE c) (s + 1)).length - s)).map digitChar
      ++ '.' :: ((padLeft (natDigitsBE c) (s + 1)).drop
        ((padLeft (natDigitsBE c) (s + 1)).length - s)).map digitChar)

/-- Numeric value of a big-endian list of digit characters. -/
def valOfDigitChars (l : List Char) : Nat := Nat.ofDigits 10 (l.map charDigit).reverse

/-- Split a character list at the first dot, keeping what precedes and follows. -/
def splitAtDot : List Char → List Char × Option (List Char)
  | [] => ([], none)
  | c :: rest =>
    if c = '.' then ([], some rest)
    else
      let p := splitAtDot rest
      (c :: p.1, p.2)

/-- Parse a decimal string back into coefficient and scale, modelling how the
`TransferRequest.amount` field (src/app/schemas/transaction.py lines 50-65)
turns an interchange decimal string into a `Decimal`: digits with at most one
dot; the scale is the number of fractional digits. -/
def parseDecimal (str : String) : Option (Nat × Nat) :=
  match splitAtDot str.data with
  | (intPart, none) =>
      if intPart ≠ [] ∧ intPart.all isDigitChar then
        some (valOfDigitChars intPart, 0)
      else none
  | (intPart, some fracPart) =>
      if intPart ≠ [] ∧ fracPart ≠ [] ∧ intPart.all isDigitChar ∧ fracPart.all isDigitChar then
        some (valOfDigitChars (intPart ++ fracPart), fracPart.length)
      else none

/-- Sample wallet: balance 1000.0000 (spec §8 concrete scenario). -/
def wallet1 : Wallet := ⟨1, 101, 10000000, "USD", 1⟩

/-- Sample wallet: balance 500.0000 (spec §8 concrete scenario). -/
def wallet2 : Wallet := ⟨2, 102, 5000000, "USD", 1⟩

/-- Sample database holding the two sample wallets and no transactions. -/
def sampleDb : DB := ⟨[wallet1, wallet2], []⟩

/-- Variant of `sampleDb` in which a concurrent writer has already bumped the
sender wallet's version from 1 to 2, so a conditional update expecting
version 1 matches zero rows. -/
def conflictDb : DB := ⟨[⟨1, 101, 10000000, "USD", 2⟩, wallet2], []⟩

/-! Extended row model with the timestamp columns of src/app/models/wallet.py.
The engine never reads `created_at`/`updated_at`, so the engine-level claims use
`Wallet` above; the frame question of which columns a successful transfer's
UPDATEs touch needs the full row, because `updated_at` carries
`onupdate=func.now()` and is rewritten by every UPDATE the store emits. -/

/-- One full row of the `wallets` table (src/app/models/wallet.py), including
`created_at` (server_default=func.now()) and `updated_at`
(server_default=func.now(), onupdate=func.now(), lines 61-66).  Timestamps are
abstract clock readings modelled as `Nat`. -/
structure WalletTs where
  id : Nat
  user_id : Nat
  balance : Int
  currency : String
  version : Nat
  created_at : Nat
  updated_at : Nat
deriving Repr, DecidableEq

/-- Database state over full wallet rows. -/
structure DBTs where
  wallets : List WalletTs
  transactions : List Transaction
deriving Repr, DecidableEq

/-- Point read `SELECT * FROM wallets WHERE id = ?` over full rows. -/
def findWalletTs (db : DBTs) (id : Nat) : Option WalletTs :=
  db.wallets.find? (fun w => w.id == id)

/-- Effect of flushing the ORM assignment `wallet.balance = ...` on the full
row: because `updated_at` has `onupdate=func.now()`
(src/app/models/wallet.py lines 61-66), the emitted statement is
`UPDATE wallets SET balance = ?, updated_at = now() WHERE id = ?`, with `now`
the transaction timestamp at flush time. -/
def applySetBalanceTs (db : DBTs) (id : Nat) (b : Int) (now : Nat) : DBTs :=
  { db with wallets := db.wallets.map (fun w =>
      if w.id == id then { w with balance := b, updated_at := now } else w) }

/-- Appending a transaction row (`session.add`) over the full-row state. -/
def insertTxnTs (db : DBTs) (t : Transaction) : DBTs :=
  { db with transactions := db.transactions ++ [t] }

/-- Row count of `UPDATE wallets ... WHERE id = ? AND version = ?` — the
optimistic strategy's version check — over full rows. -/
def condRowcountTs (db : DBTs) (id : Nat) (v : Nat) : Nat :=
  (db.wallets.filter (fun w => w.id == id && w.version == v)).length

/-- `TransactionService.transfer_funds_pessimistic`
(src/app/services/transaction_service.py lines 223-278) over the full-row state:
identical validation and mutation logic to `transfer_funds_pessimistic`, with
the balance flushes carrying the store's `updated_at = now()` update default;
returns the committed state on success. -/
def transfer_funds_pessimistic_ts (db : DBTs) (sender_wallet_id receiver_wallet_id : Nat)
    (amount : Int) (now : Nat) : Except AppError DBTs :=
  if amount ≤ 0 then
    .error (.validationError "Transfer amount must be greater than zero")
  else
    match findWalletTs db sender_wallet_id with
    | none => .error (.notFoundError "Wallet" (toString sender_wallet_id))
    | some sender_wallet =>
      match findWalletTs db receiver_wallet_id with
      | none => .error (.notFoundError "Wallet" (toString receiver_wallet_id))
      | some receiver_wallet =>
        if sender_wallet_id = receiver_wallet_id then
          .error (.validationError "Cannot transfer funds to the same wallet")
        else if sender_wallet.balance < amount then
          .error (.insufficientFundsError (toString sender_wallet_id) amount
            sender_wallet.balance)
        else
          .ok (insertTxnTs
            (applySetBalanceTs
              (applySetBalanceTs db sender_wallet_id (sender_wallet.balance - amount) now)
              receiver_wallet_id (receiver_wallet.balance + amount) now)
            ⟨sender_wallet_id, receiver_wallet_id, amount, .COMPLETED⟩)

/-- Full-row sample sender: balance 1000.0000, timestamps 0. -/
def wallet1Ts : WalletTs := ⟨1, 101, 10000000, "USD", 1, 0, 0⟩

/-- Full-row sample receiver: balance 500.0000, timestamps 0. -/
def wallet2Ts : WalletTs := ⟨2, 102, 5000000, "USD", 1, 0, 0⟩

/-- Full-row sample database. -/
def sampleDbTs : DBTs := ⟨[wallet1Ts, wallet2Ts], []⟩

example :
    (transfer_funds_pessimistic sampleDb 1 2 1000000).result =
      .ok ⟨1, 2, 1000000, .COMPLETED⟩ := by decide

example :
    findWallet (committedDb sampleDb (transfer_funds_pessimistic sampleDb 1 2 1000000)) 1 =
      some ⟨1, 101, 9000000, "USD", 1⟩ := by decide

example :
    (transfer_funds_optimistic sampleDb sampleDb 1 2 1000000).result =
      .ok ⟨1, 2, 1000000, .COMPLETED⟩ := by decide

example :
    findWallet (committedDb sampleDb (transfer_funds_optimistic sampleDb sampleDb 1 2 1000000)) 2 =
      some ⟨2, 102, 6000000, "USD", 2⟩ := by decide

example :
    (transfer_funds_pessimistic sampleDb 1 2 15000000).result =
      .error (.insufficientFundsError "1" 15000000 10000000) := by decide

/-! Helper lemmas about `findWallet`, `applyWrite` and `condRowcount`. -/

lemma find?_map_id_pres (g : Wallet → Wallet) (hg : ∀ w, (g w).id = w.id)
    (l : List Wallet) (x : Nat) :
    (l.map g).find? (fun w => w.id == x) = (l.find? (fun w => w.id == x)).map g := by
  induction l with
  | nil => rfl
  | cons w l ih =>
    simp only [List.map_cons, List.find?_cons]
    rw [hg w]
    cases h : (w.id == x) <;> simp [ih]

lemma findWallet_applyWrite_setBalance (db : DB) (i x : Nat) (b : Int) :
    findWallet (applyWrite db (.setBalance i b)) x =
      (findWallet db x).map (fun w => if w.id == i then { w with balance := b } else w) := by
  unfold findWallet
  simp only [applyWrite]
  exact find?_map_id_pres _ (fun w => by split <;> rfl) db.wallets x

lemma findWallet_applyWrite_condUpdate (db : DB) (i x v : Nat) (b : Int) (nv : Nat) :
    findWallet (applyWrite db (.condUpdate i v b nv)) x =
      (findWallet db x).map (fun w =>
        if w.id == i && w.version == v then { w with balance := b, version := nv } else w) := by
  unfold findWallet
  simp only [applyWrite]
  exact find?_map_id_pres _ (fun w => by split <;> rfl) db.wallets x

lemma findWallet_applyWrite_insertTxn (db : DB) (x : Nat) (t : Transaction) :
    findWallet (applyWrite db (.insertTxn t)) x = findWallet db x := rfl

lemma findWallet_id (db : DB) (x : Nat) (w : Wallet) (h : findWallet db x = some w) :
    w.id = x := by
  have := List.find?_some h
  simpa using this

lemma findWallet_mem (db : DB) (x : Nat) (w : Wallet) (h : findWallet db x = some w) :
    w ∈ db.wallets := List.mem_of_find?_eq_some h

lemma findWallet_applyWrite_setBalance_ne (db : DB) (i x : Nat) (b : Int) (hx : x ≠ i) :
    findWallet (applyWrite db (.setBalance i b)) x = findWallet db x := by
  rw [findWallet_applyWrite_setBalance]
  cases h : findWallet db x with
  | none => rfl
  | some w =>
    have hid : w.id = x := findWallet_id db x w h
    simp [hid, hx]

lemma findWallet_applyWrite_condUpdate_ne (db : DB) (i x v : Nat) (b : Int) (nv : Nat)
    (hx : x ≠ i) :
    findWallet (applyWrite db (.condUpdate i v b nv)) x = findWallet db x := by
  rw [findWallet_applyWrite_condUpdate]
  cases h : findWallet db x with
  | none => rfl
  | some w =>
    have hid : w.id = x := findWallet_id db x w h
    simp [hid, hx]

lemma applyWrite_condUpdate_of_rowcount_zero (db : DB) (i v : Nat) (b : Int) (nv : Nat)
    (h : condRowcount db i v = 0) :
    applyWrite db (.condUpdate i v b nv) = db := by
  unfold condRowcount at h
  rw [List.length_eq_zero, List.filter_eq_nil_iff] at h
  simp only [applyWrite]
  have hmap : db.wallets.map (fun w =>
      if w.id == i && w.version == v then { w with balance := b, version := nv } else w) =
        db.wallets := by
    have h1 := List.map_congr_left (l := db.wallets)
      (fun w hw => (if_neg (h w hw) :
        (if w.id == i && w.version == v then { w with balance := b, version := nv } else w) = w))
    rw [h1, List.map_id']
  rw [hmap]

lemma condRowcount_ne_zero_exists (db : DB) (i v : Nat) (h : condRowcount db i v ≠ 0) :
    ∃ u ∈ db.wallets, u.id = i ∧ u.version = v := by
  unfold condRowcount at h
  have h' : db.wallets.filter (fun w => w.id == i && w.version == v) ≠ [] := by
    intro hnil
    rw [hnil] at h
    simp at h
  rcases List.exists_mem_of_ne_nil _ h' with ⟨u, hu⟩
  rw [List.mem_filter] at hu
  exact ⟨u, hu.1, by simpa using hu.2⟩

lemma rowcount_pos_version (db : DB) (x v : Nat) (w : Wallet)
    (hnd : (db.wallets.map Wallet.id).Nodup)
    (hf : findWallet db x = some w) (h : condRowcount db x v ≠ 0) : w.version = v := by
  rcases condRowcount_ne_zero_exists db x v h with ⟨u, hmem, huid, huv⟩
  have hw : w ∈ db.wallets := findWallet_mem db x w hf
  have hwid : w.id = x := findWallet_id db x w hf
  have hu : u = w := List.inj_on_of_nodup_map hnd hmem hw (by rw [huid, hwid])
  rw [← hu]; exact huv

lemma wallets_map_pres (g : Wallet → Wallet) {α : Type} (π : Wallet → α)
    (h : ∀ w, π (g w) = π w) (l : List Wallet) : (l.map g).map π = l.map π := by
  rw [List.map_map]
  exact List.map_congr_left (fun w _ => h w)

lemma map_id_applyWrite (db : DB) (op : WriteOp) :
    ((applyWrite db op).wallets.map Wallet.id) = db.wallets.map Wallet.id := by
  cases op with
  | setBalance i b =>
    simp only [applyWrite]
    exact wallets_map_pres _ _ (fun w => by split <;> rfl) _
  | condUpdate i v b nv =>
    simp only [applyWrite]
    exact wallets_map_pres _ _ (fun w => by split <;> rfl) _
  | insertTxn t => rfl

lemma condRowcount_applyWrite_setBalance (db : DB) (i : Nat) (b : Int) (x u : Nat) :
    condRowcount (applyWrite db (.setBalance i b)) x u = condRowcount db x u := by
  unfold condRowcount
  simp only [applyWrite]
  rw [← List.countP_eq_length_filter, ← List.countP_eq_length_filter, List.countP_map]
  exact List.countP_congr (fun w _ => by
    simp only [Function.comp_apply]
    split <;> exact Iff.rfl)

lemma condRowcount_applyWrite_condUpdate_ne (db : DB) (i v : Nat) (b : Int) (nv : Nat)
    (x u : Nat) (hx : x ≠ i) :
    condRowcount (applyWrite db (.condUpdate i v b nv)) x u = condRowcount db x u := by
  unfold condRowcount
  simp only [applyWrite]
  rw [← List.countP_eq_length_filter, ← List.countP_eq_length_filter, List.countP_map]
  refine List.countP_congr (fun w _ => ?_)
  simp only [Function.comp_apply]
  by_cases hcase : (w.id == i && w.version == v) = true
  · rw [if_pos hcase]
    have hid : w.id = i := by
      have h1 := hcase
      simp only [Bool.and_eq_true, beq_iff_eq] at h1
      exact h1.1
    simp [hid, Ne.symm hx]
  · rw [if_neg hcase]

/-! Characterizations of the two transfer strategies. -/

lemma pessimistic_success_eq (db : DB) (s r : Nat) (a : Int) (sw rw : Wallet)
    (ha : 0 < a) (hs : findWallet db s = some sw) (hr : findWallet db r = some rw)
    (hne : s ≠ r) (hbal : a ≤ sw.balance) :
    transfer_funds_pessimistic db s r a =
      ⟨.ok ⟨s, r, a, .COMPLETED⟩,
        applyWrite (applyWrite (applyWrite db (.setBalance s (sw.balance - a)))
          (.setBalance r (rw.balance + a))) (.insertTxn ⟨s, r, a, .COMPLETED⟩),
        [.setBalance s (sw.balance - a), .setBalance r (rw.balance + a),
          .insertTxn ⟨s, r, a, .COMPLETED⟩]⟩ := by
  have h1 : ¬ a ≤ 0 := by omega
  have h2 : ¬ sw.balance < a := by omega
  simp [transfer_funds_pessimistic, hs, hr, h1, h2, hne]

lemma pessimistic_cases (db : DB) (s r : Nat) (a : Int) :
    (∃ e, transfer_funds_pessimistic db s r a = ⟨.error e, db, []⟩) ∨
    (∃ t, (transfer_funds_pessimistic db s r a).result = .ok t) := by
  unfold transfer_funds_pessimistic
  repeat' split
  all_goals first
    | exact Or.inl ⟨_, rfl⟩
    | exact Or.inr ⟨_, rfl⟩

lemma pessimistic_error_state (db : DB) (s r : Nat) (a : Int) (e : AppError)
    (h : (transfer_funds_pessimistic db s r a).result = .error e) :
    transfer_funds_pessimistic db s r a = ⟨.error e, db, []⟩ := by
  rcases pessimistic_cases db s r a with ⟨e', he⟩ | ⟨t, ht⟩
  · rw [he] at h ⊢
    simp only [Except.error.injEq] at h
    rw [h]
  · rw [ht] at h
    simp at h

lemma pessimistic_ok_inv (db : DB) (s r : Nat) (a : Int) (t : Transaction)
    (h : (transfer_funds_pessimistic db s r a).result = .ok t) :
    0 < a ∧ s ≠ r ∧
      ∃ sw rw, findWallet db s = some sw ∧ findWallet db r = some rw ∧ a ≤ sw.balance := by
  unfold transfer_funds_pessimistic at h
  repeat' split at h
  all_goals simp_all

lemma optimistic_sender_conflict_eq (dbRead dbWrite : DB) (s r : Nat) (a : Int) (sw rw : Wallet)
    (ha : 0 < a) (hs : findWallet dbRead s = some sw) (hr : findWallet dbRead r = some rw)
    (hne : s ≠ r) (hbal : a ≤ sw.balance)
    (hzero : condRowcount dbWrite s sw.version = 0) :
    transfer_funds_optimistic dbRead dbWrite s r a =
      ⟨.error (.concurrencyError "Wallet" (toString s)),
        applyWrite dbWrite (.condUpdate s sw.version (sw.balance - a) (sw.version + 1)),
        [.condUpdate s sw.version (sw.balance - a) (sw.version + 1)]⟩ := by
  have h1 : ¬ a ≤ 0 := by omega
  have h2 : ¬ sw.balance < a := by omega
  simp [transfer_funds_optimistic, hs, hr, h1, h2, hne, hzero]

lemma optimistic_success_eq (dbRead dbWrite : DB) (s r : Nat) (a : Int) (sw rw : Wallet)
    (ha : 0 < a) (hs : findWallet dbRead s = some sw) (hr : findWallet dbRead r = some rw)
    (hne : s ≠ r) (hbal : a ≤ sw.balance)
    (h1 : condRowcount dbWrite s sw.version ≠ 0)
    (h2 : condRowcount
      (applyWrite dbWrite (.condUpdate s sw.version (sw.balance - a) (sw.version + 1)))
      r rw.version ≠ 0) :
    transfer_funds_optimistic dbRead dbWrite s r a =
      ⟨.ok ⟨s, r, a, .COMPLETED⟩,
        applyWrite (applyWrite
          (applyWrite dbWrite (.condUpdate s sw.version (sw.balance - a) (sw.version + 1)))
          (.condUpdate r rw.version (rw.balance + a) (rw.version + 1)))
          (.insertTxn ⟨s, r, a, .COMPLETED⟩),
        [.condUpdate s sw.version (sw.balance - a) (sw.version + 1),
          .condUpdate r rw.version (rw.balance + a) (rw.version + 1),
          .insertTxn ⟨s, r, a, .COMPLETED⟩]⟩ := by
  have ha1 : ¬ a ≤ 0 := by omega
  have hb1 : ¬ sw.balance < a := by omega
  simp [transfer_funds_optimistic, hs, hr, ha1, hb1, hne, h1, h2]

lemma optimistic_shape (dbRead dbWrite : DB) (s r : Nat) (a : Int) :
    (∃ e, transfer_funds_optimistic dbRead dbWrite s r a = ⟨.error e, dbWrite, []⟩) ∨
    (∃ e i v b nv, transfer_funds_optimistic dbRead dbWrite s r a =
        ⟨.error e, applyWrite dbWrite (.condUpdate i v b nv), [.condUpdate i v b nv]⟩) ∨
    (∃ e i v b nv i2 v2 b2 nv2, transfer_funds_optimistic dbRead dbWrite s r a =
        ⟨.error e,
          applyWrite (applyWrite dbWrite (.condUpdate i v b nv)) (.condUpdate i2 v2 b2 nv2),
          [.condUpdate i v b nv, .condUpdate i2 v2 b2 nv2]⟩) ∨
    (∃ t, (transfer_funds_optimistic dbRead dbWrite s r a).result = .ok t) := by
  simp only [transfer_funds_optimistic]
  repeat' split
  all_goals first
    | exact Or.inl ⟨_, rfl⟩
    | exact Or.inr (Or.inl ⟨_, _, _, _, _, rfl⟩)
    | exact Or.inr (Or.inr (Or.inl ⟨_, _, _, _, _, _, _, _, _, rfl⟩))
    | exact Or.inr (Or.inr (Or.inr ⟨_, rfl⟩))

lemma optimistic_error_frame (dbRead dbWrite : DB) (s r : Nat) (a : Int) (e : AppError)
    (h : (transfer_funds_optimistic dbRead dbWrite s r a).result = .error e) :
    (transfer_funds_optimistic dbRead dbWrite s r a).sessionDb.transactions =
      dbWrite.transactions ∧
    ∀ t, WriteOp.insertTxn t ∉ (transfer_funds_optimistic dbRead dbWrite s r a).writes := by
  rcases optimistic_shape dbRead dbWrite s r a with
    ⟨e', he⟩ | ⟨e', i, v, b, nv, he⟩ | ⟨e', i, v, b, nv, i2, v2, b2, nv2, he⟩ | ⟨t, ht⟩
  · rw [he]
    exact ⟨rfl, by simp⟩
  · rw [he]
    refine ⟨rfl, by simp⟩
  · rw [he]
    refine ⟨rfl, by simp⟩
  · rw [ht] at h
    simp at h

lemma optimistic_ok_inv (dbRead dbWrite : DB) (s r : Nat) (a : Int) (t : Transaction)
    (h : (transfer_funds_optimistic dbRead dbWrite s r a).result = .ok t) :
    0 < a ∧ s ≠ r ∧
      ∃ sw rw, findWallet dbRead s = some sw ∧ findWallet dbRead r = some rw ∧
        a ≤ sw.balance ∧ condRowcount dbWrite s sw.version ≠ 0 ∧
        condRowcount
          (applyWrite dbWrite (.condUpdate s sw.version (sw.balance - a) (sw.version + 1)))
          r rw.version ≠ 0 := by
  simp only [transfer_funds_optimistic] at h
  repeat' split at h
  all_goals simp_all

lemma pessimistic_insufficient_inv (db : DB) (s r : Nat) (a : Int) (w : String)
    (req avail : Int)
    (h : (transfer_funds_pessimistic db s r a).result =
      .error (.insufficientFundsError w req avail)) :
    ∃ sw, findWallet db s = some sw ∧ w = toString s ∧ req = a ∧ avail = sw.balance := by
  unfold transfer_funds_pessimistic at h
  repeat' split at h
  all_goals simp_all

lemma optimistic_insufficient_inv (dbRead dbWrite : DB) (s r : Nat) (a : Int) (w : String)
    (req avail : Int)
    (h : (transfer_funds_optimistic dbRead dbWrite s r a).result =
      .error (.insufficientFundsError w req avail)) :
    ∃ sw, findWallet dbRead s = some sw ∧ w = toString s ∧ req = a ∧ avail = sw.balance := by
  simp only [transfer_funds_optimistic] at h
  repeat' split at h
  all_goals simp_all

lemma committedDb_mk_ok (pre sdb : DB) (t : Transaction) (w : List WriteOp) :
    committedDb pre ⟨.ok t, sdb, w⟩ = sdb := rfl

lemma committedDb_mk_error (pre sdb : DB) (e : AppError) (w : List WriteOp) :
    committedDb pre ⟨.error e, sdb, w⟩ = pre := rfl

lemma pessimistic_committed_find (db : DB) (s r : Nat) (a : Int) (sw rw : Wallet)
    (ha : 0 < a) (hs : findWallet db s = some sw) (hr : findWallet db r = some rw)
    (hne : s ≠ r) (hbal : a ≤ sw.balance) :
    findWallet (committedDb db (transfer_funds_pessimistic db s r a)) s =
      some { sw with balance := sw.balance - a } ∧
    findWallet (committedDb db (transfer_funds_pessimistic db s r a)) r =
      some { rw with balance := rw.balance + a } := by
  rw [pessimistic_success_eq db s r a sw rw ha hs hr hne hbal, committedDb_mk_ok]
  have hsid : sw.id = s := findWallet_id db s sw hs
  have hrid : rw.id = r := findWallet_id db r rw hr
  constructor
  · rw [findWallet_applyWrite_insertTxn, findWallet_applyWrite_setBalance_ne _ r s _ hne,
      findWallet_applyWrite_setBalance, hs]
    simp [hsid]
  · rw [findWallet_applyWrite_insertTxn, findWallet_applyWrite_setBalance,
      findWallet_applyWrite_setBalance_ne _ s r _ (Ne.symm hne), hr]
    simp [hrid]

lemma optimistic_committed_find (dbRead dbWrite : DB) (s r : Nat) (a : Int)
    (sw rw swW rwW : Wallet)
    (hnd : (dbWrite.wallets.map Wallet.id).Nodup)
    (ha : 0 < a) (hs : findWallet dbRead s = some sw) (hr : findWallet dbRead r = some rw)
    (hne : s ≠ r) (hbal : a ≤ sw.balance)
    (hsW : findWallet dbWrite s = some swW) (hrW : findWallet dbWrite r = some rwW)
    (h1 : condRowcount dbWrite s sw.version ≠ 0)
    (h2 : condRowcount (applyWrite dbWrite
      (.condUpdate s sw.version (sw.balance - a) (sw.version + 1))) r rw.version ≠ 0) :
    findWallet (committedDb dbWrite (transfer_funds_optimistic dbRead dbWrite s r a)) s =
      some { swW with balance := sw.balance - a, version := sw.version + 1 } ∧
    findWallet (committedDb dbWrite (transfer_funds_optimistic dbRead dbWrite s r a)) r =
      some { rwW with balance := rw.balance + a, version := rw.version + 1 } := by
  rw [optimistic_success_eq dbRead dbWrite s r a sw rw ha hs hr hne hbal h1 h2,
    committedDb_mk_ok]
  have hsid : swW.id = s := findWallet_id dbWrite s swW hsW
  have hrid : rwW.id = r := findWallet_id dbWrite r rwW hrW
  have hswv : swW.version = sw.version := rowcount_pos_version dbWrite s sw.version swW hnd hsW h1
  have hnd1 : (((applyWrite dbWrite
      (.condUpdate s sw.version (sw.balance - a) (sw.version + 1))).wallets.map Wallet.id)).Nodup := by
    rw [map_id_applyWrite]; exact hnd
  have hr1 : findWallet (applyWrite dbWrite
      (.condUpdate s sw.version (sw.balance - a) (sw.version + 1))) r = some rwW := by
    rw [findWallet_applyWrite_condUpdate_ne _ s r _ _ _ (Ne.symm hne)]; exact hrW
  have hrwv : rwW.version = rw.version := rowcount_pos_version _ r rw.version rwW hnd1 hr1 h2
  constructor
  · rw [findWallet_applyWrite_insertTxn, findWallet_applyWrite_condUpdate_ne _ r s _ _ _ hne,
      findWallet_applyWrite_condUpdate, hsW]
    simp [hsid, hswv]
  · rw [findWallet_applyWrite_insertTxn, findWallet_applyWrite_condUpdate, hr1]
    simp [hrid, hrwv]

lemma wallets_applyWrite_insertTxn (db : DB) (t : Transaction) :
    (applyWrite db (.insertTxn t)).wallets = db.wallets := rfl

lemma applyWrite_setBalance_proj (db : DB) (i : Nat) (b : Int) :
    ((applyWrite db (.setBalance i b)).wallets.map Wallet.id = db.wallets.map Wallet.id) ∧
    ((applyWrite db (.setBalance i b)).wallets.map Wallet.version =
      db.wallets.map Wallet.version) ∧
    ((applyWrite db (.setBalance i b)).wallets.map Wallet.user_id =
      db.wallets.map Wallet.user_id) ∧
    ((applyWrite db (.setBalance i b)).wallets.map Wallet.currency =
      db.wallets.map Wallet.currency) := by
  simp only [applyWrite]
  exact ⟨wallets_map_pres _ _ (fun w => by split <;> rfl) _,
    wallets_map_pres _ _ (fun w => by split <;> rfl) _,
    wallets_map_pres _ _ (fun w => by split <;> rfl) _,
    wallets_map_pres _ _ (fun w => by split <;> rfl) _⟩

/-! Claim theorems. -/

/-- C1: for every successful transfer (either strategy) of amount `a` from a sender
with pre-balance `sw.balance` to a receiver with pre-balance `rw.balance`, the
committed post-balances are exactly `sw.balance - a` and `rw.balance + a`, and their
sum equals the pre-balance sum.  Balances are scale-4 fixed-point integers, so the
subtraction and addition are exact with no rounding. -/
theorem C1_balance_conservation (db : DB) (s r : Nat) (a : Int) (sw rw : Wallet)
    (hnd : (db.wallets.map Wallet.id).Nodup)
    (hs : findWallet db s = some sw) (hr : findWallet db r = some rw) :
    (∀ t, (transfer_funds_pessimistic db s r a).result = .ok t →
      findWallet (committedDb db (transfer_funds_pessimistic db s r a)) s =
        some { sw with balance := sw.balance - a } ∧
      findWallet (committedDb db (transfer_funds_pessimistic db s r a)) r =
        some { rw with balance := rw.balance + a } ∧
      (sw.balance - a) + (rw.balance + a) = sw.balance + rw.balance) ∧
    (∀ t, (transfer_funds_optimistic db db s r a).result = .ok t →
      findWallet (committedDb db (transfer_funds_optimistic db db s r a)) s =
        some { sw with balance := sw.balance - a, version := sw.version + 1 } ∧
      findWallet (committedDb db (transfer_funds_optimistic db db s r a)) r =
        some { rw with balance := rw.balance + a, version := rw.version + 1 } ∧
      (sw.balance - a) + (rw.balance + a) = sw.balance + rw.balance) := by
  constructor
  · intro t h
    obtain ⟨ha, hne, sw0, rw0, hs0, hr0, hbal0⟩ := pessimistic_ok_inv db s r a t h
    have hsw : sw = sw0 := Option.some.inj (hs.symm.trans hs0)
    have hrw : rw = rw0 := Option.some.inj (hr.symm.trans hr0)
    subst hsw; subst hrw
    obtain ⟨hfs, hfr⟩ := pessimistic_committed_find db s r a sw rw ha hs hr hne hbal0
    exact ⟨hfs, hfr, by omega⟩
  · intro t h
    obtain ⟨ha, hne, sw0, rw0, hs0, hr0, hbal0, h1, h2⟩ := optimistic_ok_inv db db s r a t h
    have hsw : sw = sw0 := Option.some.inj (hs.symm.trans hs0)
    have hrw : rw = rw0 := Option.some.inj (hr.symm.trans hr0)
    subst hsw; subst hrw
    obtain ⟨hfs, hfr⟩ :=
      optimistic_committed_find db db s r a sw rw sw rw hnd ha hs hr hne hbal0 hs hr h1 h2
    exact ⟨hfs, hfr, by omega⟩

/-- C2: for every failing call of either strategy — covering all five business-failure
kinds since the error is universally quantified — the committed state equals the
pre-call state.  Moreover the pessimistic engine issued no write at all, and the
optimistic engine appended no transaction row to its session and issued no
`insertTxn` write. -/
theorem C2_atomicity_on_failure (db dbRead dbWrite : DB) (s r : Nat) (a : Int)
    (e e' : AppError) :
    ((transfer_funds_pessimistic db s r a).result = .error e →
      committedDb db (transfer_funds_pessimistic db s r a) = db ∧
      (transfer_funds_pessimistic db s r a).sessionDb = db ∧
      (transfer_funds_pessimistic db s r a).writes = []) ∧
    ((transfer_funds_optimistic dbRead dbWrite s r a).result = .error e' →
      committedDb dbWrite (transfer_funds_optimistic dbRead dbWrite s r a) = dbWrite ∧
      (transfer_funds_optimistic dbRead dbWrite s r a).sessionDb.transactions =
        dbWrite.transactions ∧
      ∀ t, WriteOp.insertTxn t ∉ (transfer_funds_optimistic dbRead dbWrite s r a).writes) := by
  constructor
  · intro h
    rw [pessimistic_error_state db s r a e h]
    exact ⟨rfl, rfl, rfl⟩
  · intro h
    obtain ⟨h1, h2⟩ := optimistic_error_frame dbRead dbWrite s r a e' h
    refine ⟨?_, h1, h2⟩
    unfold committedDb
    rw [h]

/-- C3: both strategies apply the validations in the fixed order amount, sender
existence, receiver existence, self-transfer, funds — the first applicable error
wins: a non-positive amount yields the invalid-amount error unconditionally, a
missing sender wins over everything later (including a self-transfer to a missing
wallet, which reports not-found), and so on. -/
theorem C3_validation_order (db dbRead dbWrite : DB) (s r : Nat) (a : Int) :
    (a ≤ 0 →
      (transfer_funds_pessimistic db s r a).result =
        .error (.validationError "Transfer amount must be greater than zero") ∧
      (transfer_funds_optimistic dbRead dbWrite s r a).result =
        .error (.validationError "Transfer amount must be greater than zero")) ∧
    (0 < a → findWallet db s = none →
      (transfer_funds_pessimistic db s r a).result =
        .error (.notFoundError "Wallet" (toString s))) ∧
    (0 < a → findWallet dbRead s = none →
      (transfer_funds_optimistic dbRead dbWrite s r a).result =
        .error (.notFoundError "Wallet" (toString s))) ∧
    (∀ sw, 0 < a → findWallet db s = some sw → findWallet db r = none →
      (transfer_funds_pessimistic db s r a).result =
        .error (.notFoundError "Wallet" (toString r))) ∧
    (∀ sw, 0 < a → findWallet dbRead s = some sw → findWallet dbRead r = none →
      (transfer_funds_optimistic dbRead dbWrite s r a).result =
        .error (.notFoundError "Wallet" (toString r))) ∧
    (∀ sw rw, 0 < a → findWallet db s = some sw → findWallet db r = some rw → s = r →
      (transfer_funds_pessimistic db s r a).result =
        .error (.validationError "Cannot transfer funds to the same wallet")) ∧
    (∀ sw rw, 0 < a → findWallet dbRead s = some sw → findWallet dbRead r = some rw → s = r →
      (transfer_funds_optimistic dbRead dbWrite s r a).result =
        .error (.validationError "Cannot transfer funds to the same wallet")) ∧
    (∀ sw rw, 0 < a → findWallet db s = some sw → findWallet db r = some rw → s ≠ r →
      sw.balance < a →
      (transfer_funds_pessimistic db s r a).result =
        .error (.insufficientFundsError (toString s) a sw.balance)) ∧
    (∀ sw rw, 0 < a → findWallet dbRead s = some sw → findWallet dbRead r = some rw → s ≠ r →
      sw.balance < a →
      (transfer_funds_optimistic dbRead dbWrite s r a).result =
        .error (.insufficientFundsError (toString s) a sw.balance)) := by
  refine ⟨?_, ?_, ?_, ?_, ?_, ?_, ?_, ?_, ?_⟩
  · intro h
    constructor <;> simp [transfer_funds_pessimistic, transfer_funds_optimistic, h]
  · intro ha hnone
    have h1 : ¬ a ≤ 0 := by omega
    simp [transfer_funds_pessimistic, h1, hnone]
  · intro ha hnone
    have h1 : ¬ a ≤ 0 := by omega
    simp [transfer_funds_optimistic, h1, hnone]
  · intro sw ha hsome hnone
    have h1 : ¬ a ≤ 0 := by omega
    simp [transfer_funds_pessimistic, h1, hsome, hnone]
  · intro sw ha hsome hnone
    have h1 : ¬ a ≤ 0 := by omega
    simp [transfer_funds_optimistic, h1, hsome, hnone]
  · intro sw rw ha hsome hrsome hself
    have h1 : ¬ a ≤ 0 := by omega
    simp [transfer_funds_pessimistic, h1, hsome, hrsome, hself]
  · intro sw rw ha hsome hrsome hself
    have h1 : ¬ a ≤ 0 := by omega
    simp [transfer_funds_optimistic, h1, hsome, hrsome, hself]
  · intro sw rw ha hsome hrsome hne hlt
    have h1 : ¬ a ≤ 0 := by omega
    simp [transfer_funds_pessimistic, h1, hsome, hrsome, hne, hlt]
  · intro sw rw ha hsome hrsome hne hlt
    have h1 : ¬ a ≤ 0 := by omega
    simp [transfer_funds_optimistic, h1, hsome, hrsome, hne, hlt]

/-- C4: when the optimistic strategy's conditional sender update matches zero rows
(the stored version no longer equals the version captured at read time), the engine
raises the concurrency error naming the sender wallet, its single issued write has
no effect on the state, and it issues no receiver update and no transaction
insert. -/
theorem C4_optimistic_sender_conflict (dbRead dbWrite : DB) (s r : Nat) (a : Int)
    (sw rw : Wallet)
    (ha : 0 < a) (hs : findWallet dbRead s = some sw) (hr : findWallet dbRead r = some rw)
    (hne : s ≠ r) (hbal : a ≤ sw.balance)
    (hzero : condRowcount dbWrite s sw.version = 0) :
    (transfer_funds_optimistic dbRead dbWrite s r a).result =
      .error (.concurrencyError "Wallet" (toString s)) ∧
    (transfer_funds_optimistic dbRead dbWrite s r a).writes =
      [.condUpdate s sw.version (sw.balance - a) (sw.version + 1)] ∧
    (∀ v b nv, WriteOp.condUpdate r v b nv ∉
      (transfer_funds_optimistic dbRead dbWrite s r a).writes) ∧
    (∀ t, WriteOp.insertTxn t ∉ (transfer_funds_optimistic dbRead dbWrite s r a).writes) ∧
    (transfer_funds_optimistic dbRead dbWrite s r a).sessionDb = dbWrite ∧
    committedDb dbWrite (transfer_funds_optimistic dbRead dbWrite s r a) = dbWrite := by
  rw [optimistic_sender_conflict_eq dbRead dbWrite s r a sw rw ha hs hr hne hbal hzero]
  refine ⟨rfl, rfl, ?_, ?_, ?_, rfl⟩
  · intro v b nv hmem
    rw [List.mem_singleton] at hmem
    injection hmem with h1 h2 h3 h4
    exact hne h1.symm
  · intro t hmem
    simp at hmem
  · exact applyWrite_condUpdate_of_rowcount_zero dbWrite s sw.version _ _ hzero

/-- C5: every successful transfer under either strategy appends exactly one
transaction row to the committed state, with status COMPLETED, the exact requested
amount, and the requested sender and receiver wallet ids. -/
theorem C5_completed_transaction_record (db dbRead dbWrite : DB) (s r : Nat) (a : Int) :
    (∀ t, (transfer_funds_pessimistic db s r a).result = .ok t →
      (committedDb db (transfer_funds_pessimistic db s r a)).transactions =
        db.transactions ++ [t] ∧
      t.status = .COMPLETED ∧ t.amount = a ∧
      t.sender_wallet_id = s ∧ t.receiver_wallet_id = r) ∧
    (∀ t, (transfer_funds_optimistic dbRead dbWrite s r a).result = .ok t →
      (committedDb dbWrite (transfer_funds_optimistic dbRead dbWrite s r a)).transactions =
        dbWrite.transactions ++ [t] ∧
      t.status = .COMPLETED ∧ t.amount = a ∧
      t.sender_wallet_id = s ∧ t.receiver_wallet_id = r) := by
  constructor
  · intro t h
    obtain ⟨ha, hne, sw, rw, hs, hr, hbal⟩ := pessimistic_ok_inv db s r a t h
    have heq := pessimistic_success_eq db s r a sw rw ha hs hr hne hbal
    rw [heq] at h
    have ht : Transaction.mk s r a .COMPLETED = t := by simpa using h
    subst ht
    rw [heq, committedDb_mk_ok]
    exact ⟨rfl, rfl, rfl, rfl, rfl⟩
  · intro t h
    obtain ⟨ha, hne, sw, rw, hs, hr, hbal, h1, h2⟩ :=
      optimistic_ok_inv dbRead dbWrite s r a t h
    have heq := optimistic_success_eq dbRead dbWrite s r a sw rw ha hs hr hne hbal h1 h2
    rw [heq] at h
    have ht : Transaction.mk s r a .COMPLETED = t := by simpa using h
    subst ht
    rw [heq, committedDb_mk_ok]
    exact ⟨rfl, rfl, rfl, rfl, rfl⟩

/-- C6: every successful optimistic transfer gives the sender wallet the committed
version `sw.version + 1` and the receiver wallet `rw.version + 1`, where
`sw.version` and `rw.version` are the versions captured at read time; the stored
versions at update time necessarily equal the captured ones, so each version
advances by exactly 1 with no skip. -/
theorem C6_optimistic_version_increment (dbRead dbWrite : DB) (s r : Nat) (a : Int)
    (t : Transaction) (sw rw swW rwW : Wallet)
    (hnd : (dbWrite.wallets.map Wallet.id).Nodup)
    (hs : findWallet dbRead s = some sw) (hr : findWallet dbRead r = some rw)
    (hsW : findWallet dbWrite s = some swW) (hrW : findWallet dbWrite r = some rwW)
    (h : (transfer_funds_optimistic dbRead dbWrite s r a).result = .ok t) :
    findWallet (committedDb dbWrite (transfer_funds_optimistic dbRead dbWrite s r a)) s =
      some { swW with balance := sw.balance - a, version := sw.version + 1 } ∧
    findWallet (committedDb dbWrite (transfer_funds_optimistic dbRead dbWrite s r a)) r =
      some { rwW with balance := rw.balance + a, version := rw.version + 1 } ∧
    swW.version = sw.version ∧ rwW.version = rw.version := by
  obtain ⟨ha, hne, sw0, rw0, hs0, hr0, hbal0, h1, h2⟩ :=
    optimistic_ok_inv dbRead dbWrite s r a t h
  have hsw : sw = sw0 := Option.some.inj (hs.symm.trans hs0)
  have hrw : rw = rw0 := Option.some.inj (hr.symm.trans hr0)
  subst hsw; subst hrw
  obtain ⟨hfs, hfr⟩ :=
    optimistic_committed_find dbRead dbWrite s r a sw rw swW rwW hnd ha hs hr hne hbal0
      hsW hrW h1 h2
  have hswv : swW.version = sw.version :=
    rowcount_pos_version dbWrite s sw.version swW hnd hsW h1
  have hnd1 : (((applyWrite dbWrite
      (.condUpdate s sw.version (sw.balance - a) (sw.version + 1))).wallets.map
        Wallet.id)).Nodup := by
    rw [map_id_applyWrite]; exact hnd
  have hr1 : findWallet (applyWrite dbWrite
      (.condUpdate s sw.version (sw.balance - a) (sw.version + 1))) r = some rwW := by
    rw [findWallet_applyWrite_condUpdate_ne _ s r _ _ _ (Ne.symm hne)]; exact hrW
  have hrwv : rwW.version = rw.version := rowcount_pos_version _ r rw.version rwW hnd1 hr1 h2
  exact ⟨hfs, hfr, hswv, hrwv⟩

/-- C7: whenever either strategy raises the insufficient-funds error, the error
carries required equal to the requested amount, available equal to the sender
balance as read in that call, and names the sender wallet. -/
theorem C7_insufficient_funds_payload (db dbRead dbWrite : DB) (s r : Nat) (a : Int)
    (sw sw' : Wallet) (w w' : String) (req req' avail avail' : Int)
    (hs : findWallet db s = some sw) (hs' : findWallet dbRead s = some sw') :
    ((transfer_funds_pessimistic db s r a).result =
        .error (.insufficientFundsError w req avail) →
      w = toString s ∧ req = a ∧ avail = sw.balance) ∧
    ((transfer_funds_optimistic dbRead dbWrite s r a).result =
        .error (.insufficientFundsError w' req' avail') →
      w' = toString s ∧ req' = a ∧ avail' = sw'.balance) := by
  constructor
  · intro h
    obtain ⟨sw0, hs0, hw, hreq, havail⟩ := pessimistic_insufficient_inv db s r a w req avail h
    have hsw : sw0 = sw := Option.some.inj (hs0.symm.trans hs)
    subst hsw
    exact ⟨hw, hreq, havail⟩
  · intro h
    obtain ⟨sw0, hs0, hw, hreq, havail⟩ :=
      optimistic_insufficient_inv dbRead dbWrite s r a w' req' avail' h
    have hsw : sw0 = sw' := Option.some.inj (hs0.symm.trans hs')
    subst hsw
    exact ⟨hw, hreq, havail⟩

/-- C8 counterexample: the claim says the adapter maps a concurrency conflict to
HTTP 409, but the endpoint's except chain has no `ConcurrencyError` arm, so a
concurrency error falls into the generic `except Exception` branch and is
answered with 500, not 409. -/
theorem C8_counterexample_concurrency_maps_to_500 :
    http_error_status (.concurrencyError "Wallet" "1") = 500 ∧
    http_error_status (.concurrencyError "Wallet" "1") ≠ 409 := by decide

/-- C8 amended: the adapter maps not-found to 404, validation and insufficient
funds to 400, and any other engine failure — including a concurrency conflict,
for which it has no specific handler — to the generic 500 server error; the
`ConcurrencyError` class itself declares status code 409, but the endpoint never
consults it. -/
theorem C8_amended_error_status_mapping (res idf msg wid : String) (req avail : Int) :
    http_error_status (.notFoundError res idf) = 404 ∧
    http_error_status (.validationError msg) = 400 ∧
    http_error_status (.insufficientFundsError wid req avail) = 400 ∧
    http_error_status (.concurrencyError res idf) = 500 ∧
    (AppError.concurrencyError res idf).status_code = 409 :=
  ⟨rfl, rfl, rfl, rfl, rfl⟩

/-! Lemmas over the full-row model, for the frame question of C10. -/

lemma find?_map_id_pres_ts (g : WalletTs → WalletTs) (hg : ∀ w, (g w).id = w.id)
    (l : List WalletTs) (x : Nat) :
    (l.map g).find? (fun w => w.id == x) = (l.find? (fun w => w.id == x)).map g := by
  induction l with
  | nil => rfl
  | cons w l ih =>
    simp only [List.map_cons, List.find?_cons]
    rw [hg w]
    cases h : (w.id == x) <;> simp [ih]

lemma findWalletTs_applySetBalanceTs (db : DBTs) (i x : Nat) (b : Int) (now : Nat) :
    findWalletTs (applySetBalanceTs db i b now) x =
      (findWalletTs db x).map (fun w =>
        if w.id == i then { w with balance := b, updated_at := now } else w) := by
  unfold findWalletTs
  simp only [applySetBalanceTs]
  exact find?_map_id_pres_ts _ (fun w => by split <;> rfl) db.wallets x

lemma findWalletTs_id (db : DBTs) (x : Nat) (w : WalletTs)
    (h : findWalletTs db x = some w) : w.id = x := by
  have := List.find?_some h
  simpa using this

lemma findWalletTs_applySetBalanceTs_ne (db : DBTs) (i x : Nat) (b : Int) (now : Nat)
    (hx : x ≠ i) :
    findWalletTs (applySetBalanceTs db i b now) x = findWalletTs db x := by
  rw [findWalletTs_applySetBalanceTs]
  cases h : findWalletTs db x with
  | none => rfl
  | some w =>
    have hid : w.id = x := findWalletTs_id db x w h
    simp [hid, hx]

lemma findWalletTs_insertTxnTs (db : DBTs) (t : Transaction) (x : Nat) :
    findWalletTs (insertTxnTs db t) x = findWalletTs db x := rfl

lemma wallets_insertTxnTs (db : DBTs) (t : Transaction) :
    (insertTxnTs db t).wallets = db.wallets := rfl

lemma wallets_map_pres_ts (g : WalletTs → WalletTs) {α : Type} (π : WalletTs → α)
    (h : ∀ w, π (g w) = π w) (l : List WalletTs) : (l.map g).map π = l.map π := by
  rw [List.map_map]
  exact List.map_congr_left (fun w _ => h w)

lemma applySetBalanceTs_proj (db : DBTs) (i : Nat) (b : Int) (now : Nat) :
    ((applySetBalanceTs db i b now).wallets.map WalletTs.id =
      db.wallets.map WalletTs.id) ∧
    ((applySetBalanceTs db i b now).wallets.map WalletTs.version =
      db.wallets.map WalletTs.version) ∧
    ((applySetBalanceTs db i b now).wallets.map WalletTs.user_id =
      db.wallets.map WalletTs.user_id) ∧
    ((applySetBalanceTs db i b now).wallets.map WalletTs.currency =
      db.wallets.map WalletTs.currency) ∧
    ((applySetBalanceTs db i b now).wallets.map WalletTs.created_at =
      db.wallets.map WalletTs.created_at) := by
  simp only [applySetBalanceTs]
  exact ⟨wallets_map_pres_ts _ _ (fun w => by split <;> rfl) _,
    wallets_map_pres_ts _ _ (fun w => by split <;> rfl) _,
    wallets_map_pres_ts _ _ (fun w => by split <;> rfl) _,
    wallets_map_pres_ts _ _ (fun w => by split <;> rfl) _,
    wallets_map_pres_ts _ _ (fun w => by split <;> rfl) _⟩

lemma condRowcountTs_applySetBalanceTs (db : DBTs) (i : Nat) (b : Int) (now : Nat)
    (x u : Nat) :
    condRowcountTs (applySetBalanceTs db i b now) x u = condRowcountTs db x u := by
  unfold condRowcountTs
  simp only [applySetBalanceTs]
  rw [← List.countP_eq_length_filter, ← List.countP_eq_length_filter, List.countP_map]
  exact List.countP_congr (fun w _ => by
    simp only [Function.comp_apply]
    split <;> exact Iff.rfl)

lemma pessimistic_ts_success_eq (db : DBTs) (s r : Nat) (a : Int) (now : Nat)
    (sw rw : WalletTs)
    (ha : 0 < a) (hs : findWalletTs db s = some sw) (hr : findWalletTs db r = some rw)
    (hne : s ≠ r) (hbal : a ≤ sw.balance) :
    transfer_funds_pessimistic_ts db s r a now =
      .ok (insertTxnTs
        (applySetBalanceTs (applySetBalanceTs db s (sw.balance - a) now)
          r (rw.balance + a) now)
        ⟨s, r, a, .COMPLETED⟩) := by
  have h1 : ¬ a ≤ 0 := by omega
  have h2 : ¬ sw.balance < a := by omega
  simp [transfer_funds_pessimistic_ts, hs, hr, h1, h2, hne]

lemma pessimistic_ts_ok_inv (db : DBTs) (s r : Nat) (a : Int) (now : Nat) (out : DBTs)
    (h : transfer_funds_pessimistic_ts db s r a now = .ok out) :
    0 < a ∧ s ≠ r ∧
      ∃ sw rw, findWalletTs db s = some sw ∧ findWalletTs db r = some rw ∧
        a ≤ sw.balance := by
  unfold transfer_funds_pessimistic_ts at h
  repeat' split at h
  all_goals simp_all

/-- C10 counterexample: a successful pessimistic transfer does modify a wallet
field other than the two balances.  The store rewrites `updated_at = now()` on
every UPDATE (`onupdate=func.now()` in src/app/models/wallet.py lines 61-66), so
with transaction timestamp 7 the sender wallet's `updated_at` changes from 0
to 7 — refuting "modifies no wallet field other than the balance of the sender
and the balance of the receiver" at a concrete input. -/
theorem C10_counterexample_updated_at_modified :
    (findWalletTs sampleDbTs 1).map WalletTs.updated_at = some 0 ∧
    (transfer_funds_pessimistic_ts sampleDbTs 1 2 1000000 7).map
      (fun db => (findWalletTs db 1).map WalletTs.updated_at) = .ok (some 7) ∧
    some (7 : Nat) ≠ some 0 := by decide

/-- C10 amended: a successful pessimistic transfer leaves both wallets' version
fields unchanged and modifies no wallet field other than the balance of the
sender, the balance of the receiver, and both wallets' `updated_at` timestamps
(which the store rewrites to `now()` on every UPDATE via `onupdate=func.now()`):
ids, versions, user ids, currencies and creation timestamps are unchanged for
every wallet, wallets other than sender and receiver are entirely unchanged, the
two mutated rows differ from their pre-states exactly in balance and
`updated_at`, and every version-gated row count — exactly what the optimistic
strategy's conditional update checks — is the same before and after, so the
transfer remains invisible to the optimistic version check. -/
theorem C10_amended_pessimistic_frame (db : DBTs) (s r : Nat) (a : Int) (now : Nat)
    (out : DBTs)
    (h : transfer_funds_pessimistic_ts db s r a now = .ok out) :
    out.wallets.map WalletTs.id = db.wallets.map WalletTs.id ∧
    out.wallets.map WalletTs.version = db.wallets.map WalletTs.version ∧
    out.wallets.map WalletTs.user_id = db.wallets.map WalletTs.user_id ∧
    out.wallets.map WalletTs.currency = db.wallets.map WalletTs.currency ∧
    out.wallets.map WalletTs.created_at = db.wallets.map WalletTs.created_at ∧
    (∀ x, x ≠ s → x ≠ r → findWalletTs out x = findWalletTs db x) ∧
    (∀ sw, findWalletTs db s = some sw →
      findWalletTs out s = some { sw with balance := sw.balance - a, updated_at := now }) ∧
    (∀ rw, findWalletTs db r = some rw →
      findWalletTs out r = some { rw with balance := rw.balance + a, updated_at := now }) ∧
    (∀ x v, condRowcountTs out x v = condRowcountTs db x v) := by
  obtain ⟨ha, hne, sw, rw, hs, hr, hbal⟩ := pessimistic_ts_ok_inv db s r a now out h
  rw [pessimistic_ts_success_eq db s r a now sw rw ha hs hr hne hbal] at h
  have hout : out = insertTxnTs
      (applySetBalanceTs (applySetBalanceTs db s (sw.balance - a) now)
        r (rw.balance + a) now)
      ⟨s, r, a, .COMPLETED⟩ := (Except.ok.inj h).symm
  subst hout
  refine ⟨?_, ?_, ?_, ?_, ?_, ?_, ?_, ?_, ?_⟩
  · rw [wallets_insertTxnTs, (applySetBalanceTs_proj _ r (rw.balance + a) now).1,
      (applySetBalanceTs_proj _ s (sw.balance - a) now).1]
  · rw [wallets_insertTxnTs, (applySetBalanceTs_proj _ r (rw.balance + a) now).2.1,
      (applySetBalanceTs_proj _ s (sw.balance - a) now).2.1]
  · rw [wallets_insertTxnTs, (applySetBalanceTs_proj _ r (rw.balance + a) now).2.2.1,
      (applySetBalanceTs_proj _ s (sw.balance - a) now).2.2.1]
  · rw [wallets_insertTxnTs, (applySetBalanceTs_proj _ r (rw.balance + a) now).2.2.2.1,
      (applySetBalanceTs_proj _ s (sw.balance - a) now).2.2.2.1]
  · rw [wallets_insertTxnTs, (applySetBalanceTs_proj _ r (rw.balance + a) now).2.2.2.2,
      (applySetBalanceTs_proj _ s (sw.balance - a) now).2.2.2.2]
  · intro x hxs hxr
    rw [findWalletTs_insertTxnTs, findWalletTs_applySetBalanceTs_ne _ r x _ now hxr,
      findWalletTs_applySetBalanceTs_ne _ s x _ now hxs]
  · intro sw' hsw'
    have hx : sw = sw' := Option.some.inj (hs.symm.trans hsw')
    subst hx
    have hsid : sw.id = s := findWalletTs_id db s sw hs
    rw [findWalletTs_insertTxnTs, findWalletTs_applySetBalanceTs_ne _ r s _ now hne,
      findWalletTs_applySetBalanceTs, hs]
    simp [hsid]
  · intro rw' hrw'
    have hx : rw = rw' := Option.some.inj (hr.symm.trans hrw')
    subst hx
    have hrid : rw.id = r := findWalletTs_id db r rw hr
    rw [findWalletTs_insertTxnTs, findWalletTs_applySetBalanceTs,
      findWalletTs_applySetBalanceTs_ne _ s r _ now (Ne.symm hne), hr]
    simp [hrid]
  · intro x v
    rw [show condRowcountTs (insertTxnTs
        (applySetBalanceTs (applySetBalanceTs db s (sw.balance - a) now)
          r (rw.balance + a) now) ⟨s, r, a, .COMPLETED⟩) x v =
      condRowcountTs (applySetBalanceTs (applySetBalanceTs db s (sw.balance - a) now)
        r (rw.balance + a) now) x v from rfl,
      condRowcountTs_applySetBalanceTs, condRowcountTs_applySetBalanceTs]

/-! Lemmas for the decimal-string round trip (C9). -/

lemma charDigit_digitChar (d : Nat) (h : d < 10) : charDigit (digitChar d) = d := by
  interval_cases d <;> decide

lemma isDigitChar_digitChar (d : Nat) (h : d < 10) : isDigitChar (digitChar d) = true := by
  interval_cases d <;> decide

lemma digitChar_ne_dot (d : Nat) (h : d < 10) : digitChar d ≠ '.' := by
  interval_cases d <;> decide

lemma splitAtDot_no_dot (l : List Char) (h : ∀ c ∈ l, c ≠ '.') :
    splitAtDot l = (l, none) := by
  induction l with
  | nil => rfl
  | cons c rest ih =>
    simp only [splitAtDot]
    rw [if_neg (h c (by simp)), ih (fun x hx => h x (by simp [hx]))]

lemma splitAtDot_append (l r : List Char) (h : ∀ c ∈ l, c ≠ '.') :
    splitAtDot (l ++ '.' :: r) = (l, some r) := by
  induction l with
  | nil => simp [splitAtDot]
  | cons c rest ih =>
    simp only [List.cons_append, splitAtDot, List.append_eq]
    rw [if_neg (h c (by simp)), ih (fun x hx => h x (by simp [hx]))]

lemma map_charDigit_map_digitChar (l : List Nat) (h : ∀ d ∈ l, d < 10) :
    (l.map digitChar).map charDigit = l := by
  induction l with
  | nil => rfl
  | cons d rest ih =>
    simp only [List.map_cons]
    rw [charDigit_digitChar d (h d (by simp)), ih (fun x hx => h x (by simp [hx]))]

lemma ofDigits_append_zeros (l : List Nat) (k : Nat) :
    Nat.ofDigits 10 (l ++ List.replicate k 0) = Nat.ofDigits 10 l := by
  rw [Nat.ofDigits_append]
  have hz : Nat.ofDigits 10 (List.replicate k 0) = 0 := by
    induction k with
    | zero => rfl
    | succ n ih => simp [List.replicate_succ, Nat.ofDigits_cons, ih]
  simp [hz]

lemma padLeft_natDigitsBE_lt (c k : Nat) : ∀ d ∈ padLeft (natDigitsBE c) k, d < 10 := by
  intro d hd
  unfold padLeft natDigitsBE at hd
  rw [List.mem_append] at hd
  rcases hd with hd | hd
  · rw [List.eq_of_mem_replicate hd]; omega
  · rw [List.mem_reverse] at hd
    exact Nat.digits_lt_base (by omega) hd

lemma padLeft_length (l : List Nat) (k : Nat) : (padLeft l k).length = max k l.length := by
  unfold padLeft
  rw [List.length_append, List.length_replicate]
  omega

lemma ofDigits_reverse_padLeft (c k : Nat) :
    Nat.ofDigits 10 (padLeft (natDigitsBE c) k).reverse = c := by
  unfold padLeft natDigitsBE
  rw [List.reverse_append, List.reverse_reverse, List.reverse_replicate,
    ofDigits_append_zeros]
  exact Nat.ofDigits_digits 10 c

lemma valOfDigitChars_map (l : List Nat) (h : ∀ d ∈ l, d < 10) :
    valOfDigitChars (l.map digitChar) = Nat.ofDigits 10 l.reverse := by
  unfold valOfDigitChars
  rw [map_charDigit_map_digitChar l h]

/-- C9: serializing a decimal amount with coefficient `c` and at most 4 fractional
digits (scale `s`) through the transaction read schema's decimal-string serializer
and parsing that string back yields exactly the original coefficient and scale,
hence a value equal to the original with no loss. -/
theorem C9_amount_string_roundtrip (c s : Nat) (hs : s ≤ 4) :
    parseDecimal (serialize_amount c s) = some (c, s) := by
  by_cases h0 : s = 0
  · subst h0
    unfold serialize_amount
    rw [if_pos rfl]
    unfold parseDecimal
    have hd10 := padLeft_natDigitsBE_lt c 1
    have hnodot : ∀ ch ∈ (padLeft (natDigitsBE c) 1).map digitChar, ch ≠ '.' := by
      intro ch hch
      rw [List.mem_map] at hch
      obtain ⟨d, hd, rfl⟩ := hch
      exact digitChar_ne_dot d (hd10 d hd)
    rw [show (String.mk ((padLeft (natDigitsBE c) 1).map digitChar)).data =
      (padLeft (natDigitsBE c) 1).map digitChar from rfl]
    simp only [splitAtDot_no_dot _ hnodot]
    have hne : (padLeft (natDigitsBE c) 1).map digitChar ≠ [] := by
      rw [← List.length_pos, List.length_map, padLeft_length]
      omega
    have hall : ((padLeft (natDigitsBE c) 1).map digitChar).all isDigitChar = true := by
      rw [List.all_eq_true]
      intro ch hch
      rw [List.mem_map] at hch
      obtain ⟨d, hd, rfl⟩ := hch
      exact isDigitChar_digitChar d (hd10 d hd)
    rw [if_pos ⟨hne, hall⟩, valOfDigitChars_map _ hd10, ofDigits_reverse_padLeft]
  · unfold serialize_amount
    rw [if_neg h0]
    unfold parseDecimal
    set ds := padLeft (natDigitsBE c) (s + 1) with hds
    rw [show (String.mk ((ds.take (ds.length - s)).map digitChar ++
        '.' :: (ds.drop (ds.length - s)).map digitChar)).data =
      (ds.take (ds.length - s)).map digitChar ++
        '.' :: (ds.drop (ds.length - s)).map digitChar from rfl]
    have hd10 : ∀ d ∈ ds, d < 10 := padLeft_natDigitsBE_lt c (s + 1)
    have hnodot : ∀ ch ∈ (ds.take (ds.length - s)).map digitChar, ch ≠ '.' := by
      intro ch hch
      rw [List.mem_map] at hch
      obtain ⟨d, hd, rfl⟩ := hch
      exact digitChar_ne_dot d (hd10 d (List.take_subset _ ds hd))
    simp only [splitAtDot_append _ _ hnodot]
    have hlen1 : s + 1 ≤ ds.length := by
      rw [hds, padLeft_length]
      omega
    have hne1 : (ds.take (ds.length - s)).map digitChar ≠ [] := by
      rw [← List.length_pos, List.length_map, List.length_take]
      omega
    have hne2 : (ds.drop (ds.length - s)).map digitChar ≠ [] := by
      rw [← List.length_pos, List.length_map, List.length_drop]
      omega
    have hall1 : ((ds.take (ds.length - s)).map digitChar).all isDigitChar = true := by
      rw [List.all_eq_true]
      intro ch hch
      rw [List.mem_map] at hch
      obtain ⟨d, hd, rfl⟩ := hch
      exact isDigitChar_digitChar d (hd10 d (List.take_subset _ ds hd))
    have hall2 : ((ds.drop (ds.length - s)).map digitChar).all isDigitChar = true := by
      rw [List.all_eq_true]
      intro ch hch
      rw [List.mem_map] at hch
      obtain ⟨d, hd, rfl⟩ := hch
      exact isDigitChar_digitChar d (hd10 d (List.drop_subset _ ds hd))
    rw [if_pos ⟨hne1, hne2, hall1, hall2⟩]
    have hcat : (ds.take (ds.length - s)).map digitChar ++
        (ds.drop (ds.length - s)).map digitChar = ds.map digitChar := by
      rw [← List.map_append, List.take_append_drop]
    rw [hcat, valOfDigitChars_map ds hd10]
    have hfl : ((ds.drop (ds.length - s)).map digitChar).length = s := by
      rw [List.length_map, List.length_drop]
      omega
    rw [hfl, hds, ofDigits_reverse_padLeft]

/-! Concrete witnesses instantiating the claim theorems on the spec's §8 scenario. -/

/-- Witness for C1 at the spec's concrete scenario (1000.0000 → 900.0000,
500.0000 → 600.0000 on a transfer of 100.0000). -/
theorem C1_witness :
    findWallet (committedDb sampleDb (transfer_funds_pessimistic sampleDb 1 2 1000000)) 1 =
      some { wallet1 with balance := wallet1.balance - 1000000 } ∧
    findWallet (committedDb sampleDb (transfer_funds_pessimistic sampleDb 1 2 1000000)) 2 =
      some { wallet2 with balance := wallet2.balance + 1000000 } ∧
    (wallet1.balance - 1000000) + (wallet2.balance + 1000000) =
      wallet1.balance + wallet2.balance :=
  (C1_balance_conservation sampleDb 1 2 1000000 wallet1 wallet2 (by decide) (by decide)
    (by decide)).1 ⟨1, 2, 1000000, .COMPLETED⟩ (by decide)

/-- Witness for C2 at a failing call (non-positive amount). -/
theorem C2_witness :
    committedDb sampleDb (transfer_funds_pessimistic sampleDb 1 2 (-1)) = sampleDb ∧
    (transfer_funds_pessimistic sampleDb 1 2 (-1)).sessionDb = sampleDb ∧
    (transfer_funds_pessimistic sampleDb 1 2 (-1)).writes = [] :=
  (C2_atomicity_on_failure sampleDb sampleDb sampleDb 1 2 (-1)
    (.validationError "Transfer amount must be greater than zero")
    (.validationError "Transfer amount must be greater than zero")).1 (by decide)

/-- Witness for C3 at the spec's failing scenario (transfer of 1500.0000 from a
balance of 1000.0000). -/
theorem C3_witness :
    (transfer_funds_pessimistic sampleDb 1 2 15000000).result =
      .error (.insufficientFundsError (toString (1 : Nat)) 15000000 wallet1.balance) :=
  (C3_validation_order sampleDb sampleDb sampleDb 1 2 15000000).2.2.2.2.2.2.2.1
    wallet1 wallet2 (by decide) (by decide) (by decide) (by decide) (by decide)

/-- Witness for C4: sender version bumped 1 → 2 between read and update. -/
theorem C4_witness :
    (transfer_funds_optimistic sampleDb conflictDb 1 2 1000000).result =
      .error (.concurrencyError "Wallet" (toString (1 : Nat))) ∧
    (transfer_funds_optimistic sampleDb conflictDb 1 2 1000000).writes =
      [.condUpdate 1 wallet1.version (wallet1.balance - 1000000) (wallet1.version + 1)] ∧
    committedDb conflictDb (transfer_funds_optimistic sampleDb conflictDb 1 2 1000000) =
      conflictDb := by
  have h := C4_optimistic_sender_conflict sampleDb conflictDb 1 2 1000000 wallet1 wallet2
    (by decide) (by decide) (by decide) (by decide) (by decide) (by decide)
  exact ⟨h.1, h.2.1, h.2.2.2.2.2⟩

/-- Witness for C5 at the spec's concrete scenario. -/
theorem C5_witness :
    (committedDb sampleDb (transfer_funds_pessimistic sampleDb 1 2 1000000)).transactions =
      sampleDb.transactions ++ [⟨1, 2, 1000000, .COMPLETED⟩] ∧
    (Transaction.mk 1 2 1000000 .COMPLETED).status = .COMPLETED ∧
    (Transaction.mk 1 2 1000000 .COMPLETED).amount = 1000000 ∧
    (Transaction.mk 1 2 1000000 .COMPLETED).sender_wallet_id = 1 ∧
    (Transaction.mk 1 2 1000000 .COMPLETED).receiver_wallet_id = 2 :=
  (C5_completed_transaction_record sampleDb sampleDb sampleDb 1 2 1000000).1
    ⟨1, 2, 1000000, .COMPLETED⟩ (by decide)

/-- Witness for C6 on a quiescent optimistic run. -/
theorem C6_witness :
    findWallet (committedDb sampleDb (transfer_funds_optimistic sampleDb sampleDb 1 2 1000000)) 1 =
      some { wallet1 with balance := wallet1.balance - 1000000, version := wallet1.version + 1 } ∧
    findWallet (committedDb sampleDb (transfer_funds_optimistic sampleDb sampleDb 1 2 1000000)) 2 =
      some { wallet2 with balance := wallet2.balance + 1000000, version := wallet2.version + 1 } ∧
    wallet1.version = wallet1.version ∧ wallet2.version = wallet2.version :=
  C6_optimistic_version_increment sampleDb sampleDb 1 2 1000000 ⟨1, 2, 1000000, .COMPLETED⟩
    wallet1 wallet2 wallet1 wallet2 (by decide) (by decide) (by decide) (by decide)
    (by decide) (by decide)

/-- Witness for C7 at the spec's failing scenario: required 1500.0000,
available 1000.0000. -/
theorem C7_witness :
    "1" = toString (1 : Nat) ∧ (15000000 : Int) = 15000000 ∧
    (10000000 : Int) = wallet1.balance :=
  (C7_insufficient_funds_payload sampleDb sampleDb sampleDb 1 2 15000000 wallet1 wallet1
    "1" "x" 15000000 0 10000000 0 (by decide) (by decide)).1 (by decide)

/-- Witness for C9 on the value 100.5000 (coefficient 1005000, scale 4). -/
theorem C9_witness : parseDecimal (serialize_amount 1005000 4) = some (1005000, 4) :=
  C9_amount_string_roundtrip 1005000 4 (by decide)

/-- Witness for the amended C10 at the spec's concrete scenario, with
transaction timestamp 7: versions stay at 1, the sender row changes exactly in
balance and `updated_at`, and the version-gated row count is unchanged. -/
theorem C10_witness :
    (DBTs.mk [⟨1, 101, 9000000, "USD", 1, 0, 7⟩, ⟨2, 102, 6000000, "USD", 1, 0, 7⟩]
        [⟨1, 2, 1000000, .COMPLETED⟩]).wallets.map WalletTs.id =
      sampleDbTs.wallets.map WalletTs.id ∧
    (DBTs.mk [⟨1, 101, 9000000, "USD", 1, 0, 7⟩, ⟨2, 102, 6000000, "USD", 1, 0, 7⟩]
        [⟨1, 2, 1000000, .COMPLETED⟩]).wallets.map WalletTs.version =
      sampleDbTs.wallets.map WalletTs.version ∧
    findWalletTs (DBTs.mk [⟨1, 101, 9000000, "USD", 1, 0, 7⟩, ⟨2, 102, 6000000, "USD", 1, 0, 7⟩]
        [⟨1, 2, 1000000, .COMPLETED⟩]) 1 =
      some { wallet1Ts with balance := wallet1Ts.balance - 1000000, updated_at := 7 } ∧
    condRowcountTs (DBTs.mk [⟨1, 101, 9000000, "USD", 1, 0, 7⟩, ⟨2, 102, 6000000, "USD", 1, 0, 7⟩]
        [⟨1, 2, 1000000, .COMPLETED⟩]) 1 1 = condRowcountTs sampleDbTs 1 1 := by
  have h := C10_amended_pessimistic_frame sampleDbTs 1 2 1000000 7
    ⟨[⟨1, 101, 9000000, "USD", 1, 0, 7⟩, ⟨2, 102, 6000000, "USD", 1, 0, 7⟩],
      [⟨1, 2, 1000000, .COMPLETED⟩]⟩ (by decide)
  exact ⟨h.1, h.2.1, h.2.2.2.2.2.2.1 wallet1Ts (by decide), h.2.2.2.2.2.2.2.2 1 1⟩

end HFTS
